import Mathlib

/-!
Verification of the moderation orchestration layer of the vettly-docs
repository against its specification.

The definitions below are a shallow embedding of the TypeScript sources:

* `packages/react/src/useModeration.ts` — the debounce/cancel check
  scheduler (`check`, `fireDebounce`, `resolveSuccess`, `resolveFailure`,
  and the trace runner `run`);
* `examples/discord-bot/src/utils/rate-limiter.ts` — the per-guild
  sliding-window rate limiter (`RateLimiter.isLimited`);
* the Discord bot database module (`getServerConfig`,
  `updateServerConfig`) — the TTL read-through config cache;
* `packages/react/src/ModeratedVideoUpload.tsx` — the video frame
  sampler (`validateFile`, `extractFramesTrace`, `generateThumbnailSeek`,
  `processFile`);
* the `ModeratedTextarea` component's `handleChange`.

Stateful code is embedded as explicit state passing: React refs and
`useState` cells become fields of a state record, and the JavaScript
event loop's interleavings become lists of explicit steps (`SchedStep`)
consumed by a small-step runner.  Remote calls are abstracted as steps
that start (`fire`) and later resolve (`resolveOk` / `resolveErr`);
observable side effects (state updates from a response, the `onCheck` /
`onError` callbacks) are emitted as events.
-/

namespace Vettly

/-- Moderation action, from the shared `ActionSchema`
(`z.enum(['block', 'warn', 'flag', 'allow'])`). -/
inductive Action
  | block
  | warn
  | flag
  | allow
  deriving DecidableEq

/-- One entry of a response's `categories` array
(`{ category, score, triggered }` in the shared `CheckResponseSchema`).
Scores are numbers in [0,1]; they are embedded as rationals. -/
structure CategoryScore where
  category : String
  score : Rat
  triggered : Bool
  deriving DecidableEq

/-- The `CheckRequest` object accepted by the hook
(`{ content, policyId, contentType, metadata }`; the fields not read by
the scheduler are elided). -/
structure CheckRequest where
  content : String
  policyId : String
  contentType : String
  deriving DecidableEq

/-- Argument of `useModeration().check`: `content: string | CheckRequest`. -/
inductive CheckContent
  | str (s : String)
  | req (r : CheckRequest)
  deriving DecidableEq

/-- The fields of a `CheckResponse` that `useModeration` reads
(`response.safe`, `response.flagged`, `response.action`,
`response.categories`); transport metadata (`decisionId`, `provider`,
`latency`, `cost`) is elided. -/
structure CheckResponse where
  safe : Bool
  flagged : Bool
  action : Action
  categories : List CategoryScore
  deriving DecidableEq

/-- The hook's `ModerationResult` state record. -/
structure ModerationResult where
  safe : Bool
  flagged : Bool
  action : Action
  categories : List CategoryScore
  isChecking : Bool
  error : Option String
  deriving DecidableEq

/-- The `useState` initializer of `result` (useModeration.ts lines 41-48). -/
def initialResult : ModerationResult :=
  { safe := true, flagged := false, action := Action.allow, categories := [],
    isChecking := false, error := none }

/-- The result written by the empty-content short-circuit
(useModeration.ts lines 76-83). -/
def emptyContentResult : ModerationResult :=
  { safe := true, flagged := false, action := Action.allow, categories := [],
    isChecking := false, error := none }

/-- State of one `useModeration` hook instance.  `pending` is
`timeoutRef` (the single scheduled debounce callback, tagged with the
call's id and content), `controller` is `abortControllerRef` (the id of
the current `AbortController`), `aborted` records the controllers on
which `.abort()` was called, `inflight` holds the requests currently
awaited inside fired debounce callbacks, and `nextId` is a fresh-id
counter for calls and controllers. -/
structure HookState where
  result : ModerationResult
  pending : Option (Nat × CheckContent)
  controller : Option Nat
  aborted : List Nat
  inflight : List (Nat × CheckContent)
  nextId : Nat
  deriving DecidableEq

/-- Observable effects of the scheduler.  `remoteStart` is the
`clientRef.current.check(checkRequest)` call leaving; `resultDelivered`
is the success continuation running `setResult(...)` and `onCheck`;
`errorDelivered` is the non-abort failure continuation running
`setResult(...)` and `onError`. -/
inductive SchedEvent
  | remoteStart (id : Nat) (c : CheckContent)
  | resultDelivered (id : Nat) (c : CheckContent) (r : CheckResponse)
  | errorDelivered (id : Nat) (c : CheckContent) (msg : String)
  deriving DecidableEq

/-- One step of the event loop as seen by the hook: a caller invokes
`check`, a pending debounce timer elapses, or an in-flight remote
request settles (the network may settle requests in any order). -/
inductive SchedStep
  | call (c : CheckContent)
  | fire
  | resolveOk (id : Nat) (r : CheckResponse)
  | resolveErr (id : Nat) (name : String) (msg : String)
  deriving DecidableEq

/-- The truthiness test `!content.trim()` (useModeration.ts line 75): a
trimmed string is the empty string exactly when every character of the
original string is whitespace, so the guard is embedded as a
character-wise whitespace test (`String.trim` itself is defined by
well-founded recursion and does not evaluate in proofs). -/
def isBlankString (s : String) : Bool :=
  s.data.all Char.isWhitespace

/-- The guard `typeof content === 'string' && !content.trim()`
(useModeration.ts line 75): only a whitespace-only string short-circuits. -/
def CheckContent.isBlank : CheckContent → Bool
  | CheckContent.str s => isBlankString s
  | CheckContent.req _ => false

/-- The body of `check` (useModeration.ts lines 60-130) up to the point
where control returns to the caller: bail out when disabled, abort the
previous controller, clear the previous debounce timer, short-circuit
blank string content, otherwise mark `isChecking` and schedule a new
debounce callback.  Note that `abortControllerRef.current.abort()` only
flips the controller's flag: the controller's signal is never passed to
`clientRef.current.check(...)` (line 99), so aborting has no effect on
requests already in flight. -/
def check (enabled : Bool) (s : HookState) (c : CheckContent) :
    HookState × List SchedEvent :=
  if enabled = false then (s, [])
  else
    let s1 : HookState :=
      { s with
        aborted :=
          match s.controller with
          | some i => i :: s.aborted
          | none => s.aborted,
        pending := none }
    if c.isBlank then
      ({ s1 with result := emptyContentResult }, [])
    else
      ({ s1 with
          result := { s1.result with isChecking := true, error := none },
          pending := some (s1.nextId, c),
          nextId := s1.nextId + 1 }, [])

/-- The debounce timer elapsing (useModeration.ts lines 90-99): the
scheduled callback creates a fresh `AbortController` and issues the
remote request, which becomes in-flight. -/
def fireDebounce (s : HookState) : HookState × List SchedEvent :=
  match s.pending with
  | none => (s, [])
  | some (i, c) =>
    ({ s with
        pending := none,
        controller := some s.nextId,
        inflight := s.inflight ++ [(i, c)],
        nextId := s.nextId + 1 },
     [SchedEvent.remoteStart i c])

/-- Look up an in-flight request by id. -/
def findInflight (s : HookState) (i : Nat) : Option (Nat × CheckContent) :=
  s.inflight.find? (fun p => p.fst == i)

/-- Remove a settled request from the in-flight list. -/
def removeInflight (s : HookState) (i : Nat) : List (Nat × CheckContent) :=
  s.inflight.filter (fun p => p.fst != i)

/-- The success continuation after `await clientRef.current.check(...)`
(useModeration.ts lines 101-112): unconditionally replace the shared
result state from the response and invoke `onCheck`.  Nothing here
consults `aborted`, because the request was issued without the
controller's signal. -/
def resolveSuccess (s : HookState) (i : Nat) (r : CheckResponse) :
    HookState × List SchedEvent :=
  match findInflight s i with
  | none => (s, [])
  | some (_, c) =>
    ({ s with
        inflight := removeInflight s i,
        result :=
          { safe := r.safe, flagged := r.flagged, action := r.action,
            categories := r.categories, isChecking := false, error := none } },
     [SchedEvent.resultDelivered i c r])

/-- The catch branch (useModeration.ts lines 113-126): an error named
`AbortError` returns silently; any other error records an error state
(`error.message || 'Failed to check content'`) and invokes `onError`. -/
def resolveFailure (s : HookState) (i : Nat) (name msg : String) :
    HookState × List SchedEvent :=
  match findInflight s i with
  | none => (s, [])
  | some (_, c) =>
    let s1 := { s with inflight := removeInflight s i }
    if name = "AbortError" then (s1, [])
    else
      let m := if msg.isEmpty then "Failed to check content" else msg
      ({ s1 with
          result := { s1.result with isChecking := false, error := some m } },
       [SchedEvent.errorDelivered i c m])

/-- Dispatch one event-loop step. -/
def step (enabled : Bool) (s : HookState) : SchedStep → HookState × List SchedEvent
  | SchedStep.call c => check enabled s c
  | SchedStep.fire => fireDebounce s
  | SchedStep.resolveOk i r => resolveSuccess s i r
  | SchedStep.resolveErr i name msg => resolveFailure s i name msg

/-- Run a list of steps from a state, accumulating emitted events. -/
def runFrom (enabled : Bool) (s : HookState) : List SchedStep →
    HookState × List SchedEvent
  | [] => (s, [])
  | a :: rest =>
    let r := step enabled s a
    let out := runFrom enabled r.fst rest
    (out.fst, r.snd ++ out.snd)

/-- The state of a freshly mounted hook. -/
def initState : HookState :=
  { result := initialResult, pending := none, controller := none,
    aborted := [], inflight := [], nextId := 0 }

/-- Run a list of steps on a fresh, enabled hook. -/
def run (steps : List SchedStep) : HookState × List SchedEvent :=
  runFrom true initState steps

/-- A lower bound on the ids that can ever reach a `remoteStart` event:
the pending timer's id and the fresh-id counter are both at least `k`. -/
def IdsBounded (k : Nat) (s : HookState) : Prop :=
  (∀ i c, s.pending = some (i, c) → k ≤ i) ∧ k ≤ s.nextId

/-- The stale response used to exhibit delivery of a superseded request. -/
def staleResponse : CheckResponse :=
  { safe := false, flagged := true, action := Action.block, categories := [] }

/-- The per-guild sliding-window rate limiter
(examples/discord-bot/src/utils/rate-limiter.ts).  The `Map<string,
number[]>` of timestamp lists is embedded extensionally by its lookup
function with default `[]` (matching `this.requests.get(guildId) ||
[]`).  Timestamps are `Date.now()` milliseconds, embedded as integers.
The periodic `cleanup` sweep only deletes or re-filters entries and is
observation-neutral for `isLimited`; it is not needed by the claims. -/
structure RateLimiter where
  maxRequests : Nat
  windowMs : Nat
  requests : String → List Int

/-- The constructor with its default arguments
(`maxRequests = 100`, `windowMs = 60_000`) and an initially empty map. -/
def RateLimiter.create (maxRequests windowMs : Nat) : RateLimiter :=
  { maxRequests := maxRequests, windowMs := windowMs, requests := fun _ => [] }

/-- The default cap of the exported singleton (`100` requests). -/
def defaultMaxRequests : Nat := 100

/-- The default window of the exported singleton (`60_000` ms). -/
def defaultWindowMs : Nat := 60000

/-- The filter `timestamps.filter(ts => now - ts < this.windowMs)`
(rate-limiter.ts line 23). -/
def recentRequests (rl : RateLimiter) (now : Int) (guildId : String) :
    List Int :=
  (rl.requests guildId).filter (fun ts => now - ts < (rl.windowMs : Int))

/-- `isLimited(guildId)` (rate-limiter.ts lines 18-34): limited when at
least `maxRequests` timestamps are inside the trailing window; otherwise
the current timestamp is pushed and stored.  Returns the boolean
together with the updated limiter. -/
def RateLimiter.isLimited (rl : RateLimiter) (now : Int) (guildId : String) :
    Bool × RateLimiter :=
  let recent := recentRequests rl now guildId
  if rl.maxRequests ≤ recent.length then (true, rl)
  else
    (false,
     { rl with
        requests := fun g =>
          if g = guildId then recent ++ [now] else rl.requests g })

/-- The admission predicate of the specification: `admit(tenantId)` is
the negation of `isLimited` (callers run the check only when
`!rateLimiter.isLimited(guildId)`). -/
def RateLimiter.tryAdmit (rl : RateLimiter) (now : Int) (guildId : String) :
    Bool × RateLimiter :=
  let r := rl.isLimited now guildId
  (!r.fst, r.snd)

/-- Run a sequence of admission attempts for one guild, one timestamp per
attempt, collecting the admission outcomes. -/
def runAdmits (rl : RateLimiter) (guildId : String) : List Int →
    List Bool × RateLimiter
  | [] => ([], rl)
  | t :: rest =>
    let r := rl.tryAdmit t guildId
    let out := runAdmits r.snd guildId rest
    (r.fst :: out.fst, out.snd)

/-- A row of the `discord_servers` table as read by the bot
(`DiscordServer`; the `createdAt` / `updatedAt` timestamps are not read
by the cache logic and are elided). -/
structure DiscordServer where
  guildId : String
  guildName : Option String
  policyPreset : String
  logChannelId : Option String
  enabled : Bool
  deriving DecidableEq

/-- One entry of the config cache:
`{ config: DiscordServer | null; timestamp: number }`. -/
structure CacheEntry where
  config : Option DiscordServer
  timestamp : Int
  deriving DecidableEq

/-- The module-level `configCache` map, embedded extensionally by its
lookup function (`Map.get` returning `undefined` on a missing key is
`none`). -/
structure ConfigCacheState where
  cache : String → Option CacheEntry

/-- The empty cache the module starts with. -/
def emptyConfigCache : ConfigCacheState := { cache := fun _ => none }

/-- `CACHE_TTL = 5 * 60 * 1000` milliseconds. -/
def CACHE_TTL : Int := 5 * 60 * 1000

/-- The database query plus cache write on the miss path of
`getServerConfig` (lines 45-57): `db` abstracts the
`select ... where guildId` query as a lookup returning the row or
`null`; the result — including `null` — is stored with the current
timestamp. -/
def queryAndCache (db : String → Option DiscordServer)
    (st : ConfigCacheState) (now : Int) (guildId : String) :
    Option DiscordServer × ConfigCacheState × Nat :=
  let config := db guildId
  (config,
   { cache := fun g =>
      if g = guildId then some { config := config, timestamp := now }
      else st.cache g },
   1)

/-- `getServerConfig(guildId)` (lines 38-58): return the cached value on
a hit within `CACHE_TTL`, otherwise query the database and cache the
result.  The third component counts the database fetches performed by
this call (0 on a hit, 1 on a miss). -/
def getServerConfig (db : String → Option DiscordServer)
    (st : ConfigCacheState) (now : Int) (guildId : String) :
    Option DiscordServer × ConfigCacheState × Nat :=
  match st.cache guildId with
  | some cached =>
    if now - cached.timestamp < CACHE_TTL then (cached.config, st, 0)
    else queryAndCache db st now guildId
  | none => queryAndCache db st now guildId

/-- The cache invalidation `configCache.delete(guildId)` performed by
every write path (`createServerConfig`, `updateServerConfig`,
`deleteServerConfig`). -/
def invalidateServerConfig (st : ConfigCacheState) (guildId : String) :
    ConfigCacheState :=
  { cache := fun g => if g = guildId then none else st.cache g }

/-- `updateServerConfig(guildId, updates)` (lines 83-100): the database
write is abstracted as the post-write lookup `db'`; the function returns
the updated row or `null` (`result || null`) and deletes the cache
entry. -/
def updateServerConfig (db' : String → Option DiscordServer)
    (st : ConfigCacheState) (guildId : String) :
    Option DiscordServer × ConfigCacheState :=
  (db' guildId, invalidateServerConfig st guildId)

/-- The value projection of `getServerConfig`. -/
def getValue (db : String → Option DiscordServer) (st : ConfigCacheState)
    (now : Int) (guildId : String) : Option DiscordServer :=
  (getServerConfig db st now guildId).fst

/-- The post-state projection of `getServerConfig`. -/
def getState (db : String → Option DiscordServer) (st : ConfigCacheState)
    (now : Int) (guildId : String) : ConfigCacheState :=
  (getServerConfig db st now guildId).snd.fst

/-- The fetch-count projection of `getServerConfig`. -/
def getFetches (db : String → Option DiscordServer) (st : ConfigCacheState)
    (now : Int) (guildId : String) : Nat :=
  (getServerConfig db st now guildId).snd.snd

/-- Default `maxSizeMB = 100` of `ModeratedVideoUpload`. -/
def defaultMaxSizeMB : Rat := 100

/-- Default `maxDurationSeconds = 300` of `ModeratedVideoUpload`. -/
def defaultMaxDurationSeconds : Rat := 300

/-- Default `acceptedFormats` of `ModeratedVideoUpload`. -/
def defaultAcceptedFormats : List String :=
  ["video/mp4", "video/webm", "video/quicktime"]

/-- Default `extractFramesCount = 3` of `ModeratedVideoUpload`
(ModeratedVideoUpload.tsx line 48). -/
def defaultExtractFramesCount : Nat := 3

/-- The caller-supplied props of `ModeratedVideoUpload` that the
processing pipeline reads; `none` means the caller omitted the prop. -/
structure VideoUploadProps where
  maxSizeMB : Option Rat
  maxDurationSeconds : Option Rat
  acceptedFormats : Option (List String)
  extractFramesCount : Option Nat

/-- The resolved configuration after destructuring defaults
(ModeratedVideoUpload.tsx lines 38-54). -/
structure VideoUploadConfig where
  maxSizeMB : Rat
  maxDurationSeconds : Rat
  acceptedFormats : List String
  extractFramesCount : Nat
  deriving DecidableEq

/-- Apply the component's destructuring defaults to the props. -/
def VideoUploadProps.resolve (p : VideoUploadProps) : VideoUploadConfig :=
  { maxSizeMB := p.maxSizeMB.getD defaultMaxSizeMB,
    maxDurationSeconds := p.maxDurationSeconds.getD defaultMaxDurationSeconds,
    acceptedFormats := p.acceptedFormats.getD defaultAcceptedFormats,
    extractFramesCount := p.extractFramesCount.getD defaultExtractFramesCount }

/-- A video file as seen by the component: `file.type`, `file.size` in
bytes, and the `video.duration` metadata in seconds (a JavaScript
number, embedded as a rational). -/
structure VideoFile where
  name : String
  mimeType : String
  sizeBytes : Rat
  duration : Rat
  deriving DecidableEq

/-- The rejection reasons of the upload pipeline (the source formats
them as message strings; they are embedded as tags). -/
inductive VideoRejectReason
  | invalidFileType
  | fileSizeExceeded
  | durationExceeded
  deriving DecidableEq

/-- `validateFile` (ModeratedVideoUpload.tsx lines 76-92): reject a file
whose MIME type is not accepted or whose size in MB
(`file.size / (1024 * 1024)`) exceeds `maxSizeMB`. -/
def validateFile (cfg : VideoUploadConfig) (f : VideoFile) :
    Option VideoRejectReason :=
  if (cfg.acceptedFormats.contains f.mimeType) = false then
    some VideoRejectReason.invalidFileType
  else if cfg.maxSizeMB < f.sizeBytes / (1024 * 1024) then
    some VideoRejectReason.fileSizeExceeded
  else none

/-- One observable step of frame extraction: a seek of the shared video
element to a time, or the capture of a frame (with the reported progress
percentage). -/
inductive FrameEvent
  | seek (time : Rat)
  | capture (index : Nat) (progress : Rat)
  deriving DecidableEq

/-- The trace of the extraction loop over a list of frame indices
(`extractFrames`, ModeratedVideoUpload.tsx lines 134-147): for each `i`,
seek to `i * interval` with `interval = duration / extractFramesCount`,
and only after the seek completes capture frame `i` and report progress
`((i + 1) / extractFramesCount) * 100`.  The list order is the temporal
order of the awaited, strictly sequential loop iterations. -/
def framesAux (duration : Rat) (count : Nat) : List Nat → List FrameEvent
  | [] => []
  | i :: rest =>
    FrameEvent.seek ((i : Rat) * (duration / (count : Rat)))
      :: FrameEvent.capture i ((((i : Rat) + 1) / (count : Rat)) * 100)
      :: framesAux duration count rest

/-- The full extraction trace: the loop `for (let i = 0; i <
extractFramesCount; i++)`. -/
def extractFramesTrace (duration : Rat) (count : Nat) : List FrameEvent :=
  framesAux duration count (List.range count)

/-- The thumbnail seek time `Math.min(1, video.duration * 0.1)`
(ModeratedVideoUpload.tsx line 104). -/
def generateThumbnailSeek (duration : Rat) : Rat :=
  min 1 (duration * (1 / 10))

/-- The single moderation submission the component makes after
extraction (`check({ content: frames[0] || '', contentType: 'video',
policyId, metadata: { totalFrames, videoDuration, ... } })`,
ModeratedVideoUpload.tsx lines 224-239). -/
structure VideoCheckSubmission where
  contentFrameIndex : Nat
  contentType : String
  policyId : String
  totalFrames : Nat
  videoDuration : Rat
  deriving DecidableEq

/-- Outcome of `processFile` (ModeratedVideoUpload.tsx lines 173-260):
either rejected before any frame work, or processed with the thumbnail
seek time, the frame-extraction trace, and the moderation submissions
issued. -/
inductive ProcessOutcome
  | rejected (reason : VideoRejectReason)
  | processed (thumbSeek : Rat) (frameEvents : List FrameEvent)
      (submitted : List VideoCheckSubmission)
  deriving DecidableEq

/-- The frame-extraction trace of an outcome (a rejected file performs
no extraction). -/
def ProcessOutcome.frameEvents : ProcessOutcome → List FrameEvent
  | ProcessOutcome.rejected _ => []
  | ProcessOutcome.processed _ ev _ => ev

/-- The moderation submissions of an outcome. -/
def ProcessOutcome.submitted : ProcessOutcome → List VideoCheckSubmission
  | ProcessOutcome.rejected _ => []
  | ProcessOutcome.processed _ _ subs => subs

/-- The thumbnail seek time of an outcome, when one was generated. -/
def ProcessOutcome.thumbSeek? : ProcessOutcome → Option Rat
  | ProcessOutcome.rejected _ => none
  | ProcessOutcome.processed t _ _ => some t

/-- `processFile` (ModeratedVideoUpload.tsx lines 173-260): validate the
file, then in `onloadedmetadata` reject on `videoDuration >
maxDurationSeconds` before any frame work, otherwise generate the
thumbnail, run the extraction loop, and — when any frames were extracted
— submit a single check whose content is the first frame
(`frames[0]`) with the total frame count as metadata. -/
def processFile (cfg : VideoUploadConfig) (policyId : String)
    (f : VideoFile) : ProcessOutcome :=
  match validateFile cfg f with
  | some reason => ProcessOutcome.rejected reason
  | none =>
    if cfg.maxDurationSeconds < f.duration then
      ProcessOutcome.rejected VideoRejectReason.durationExceeded
    else
      let frames := List.range cfg.extractFramesCount
      ProcessOutcome.processed
        (generateThumbnailSeek f.duration)
        (extractFramesTrace f.duration cfg.extractFramesCount)
        (if 0 < frames.length then
          [{ contentFrameIndex := frames.headD 0, contentType := "video",
             policyId := policyId, totalFrames := frames.length,
             videoDuration := f.duration }]
         else [])

/-- The seek times of a frame-event trace, in order. -/
def seekTimes : List FrameEvent → List Rat
  | [] => []
  | FrameEvent.seek t :: rest => t :: seekTimes rest
  | FrameEvent.capture _ _ :: rest => seekTimes rest

/-- `ModeratedTextarea`'s `handleChange` (lines 70-87): when
`blockUnsafe` is set and the current result is unsafe, a strictly longer
new value is dropped (state unchanged, `onChange` not invoked);
otherwise the internal value is replaced and `onChange` is invoked.  The
returned boolean records whether `onChange` ran.  String length stands
for the JavaScript `.length`. -/
def handleChange (blockUnsafe resultSafe : Bool)
    (internalValue newValue : String) : String × Bool :=
  if blockUnsafe = true ∧ resultSafe = false
      ∧ internalValue.length < newValue.length then
    (internalValue, false)
  else (newValue, true)

/-- Concrete configuration for the sampler examples: five frames, the
other props at their defaults. -/
def cfgFive : VideoUploadConfig :=
  { maxSizeMB := defaultMaxSizeMB,
    maxDurationSeconds := defaultMaxDurationSeconds,
    acceptedFormats := defaultAcceptedFormats,
    extractFramesCount := 5 }

/-- The fully default configuration of the component. -/
def cfgDefault : VideoUploadConfig :=
  VideoUploadProps.resolve
    { maxSizeMB := none, maxDurationSeconds := none,
      acceptedFormats := none, extractFramesCount := none }

/-- A 60-second, 2 MB mp4 clip used as a concrete accepted input. -/
def clip60 : VideoFile :=
  { name := "clip.mp4", mimeType := "video/mp4",
    sizeBytes := 2 * 1024 * 1024, duration := 60 }

/-- Helper: the seek times collected from an extraction trace over any
index list are exactly the indices scaled by the sample interval. -/
theorem seekTimes_framesAux (d : Rat) (c : Nat) (l : List Nat) :
    seekTimes (framesAux d c l)
      = l.map (fun i => (i : Rat) * (d / (c : Rat))) := by
  induction l with
  | nil => rfl
  | cons i rest ih =>
    simp only [framesAux, seekTimes, List.map_cons]
    exact congrArg _ ih

/-- Helper: in an extraction trace, the seek of the k-th listed index
sits at position 2k and its capture at position 2k+1; in particular each
capture precedes the following seek. -/
theorem framesAux_get_pair (d : Rat) (c : Nat) :
    ∀ (l : List Nat) (k : Nat) (h : k < l.length),
      (framesAux d c l).get? (2 * k)
          = some (FrameEvent.seek ((l.get ⟨k, h⟩ : Rat) * (d / (c : Rat))))
        ∧ (framesAux d c l).get? (2 * k + 1)
          = some (FrameEvent.capture (l.get ⟨k, h⟩)
              ((((l.get ⟨k, h⟩ : Rat) + 1) / (c : Rat)) * 100))
  | [], k, h => absurd h (by simp)
  | i :: rest, 0, h => by simp [framesAux]
  | i :: rest, (k + 1), h => by
    have ih := framesAux_get_pair d c rest k (by simpa using h)
    have h2 : 2 * (k + 1) = 2 * k + 1 + 1 := by omega
    simpa [framesAux, h2] using ih

/-- Helper: the first frame index of a nonempty range is 0. -/
theorem range_headD_zero (n : Nat) (h : 0 < n) :
    (List.range n).headD 0 = 0 := by
  cases n with
  | zero => exact absurd h (by simp)
  | succ m => simp [List.range_eq_range', List.range']

/-- Helper: the first element of a nonempty range is 0. -/
theorem range_head_eq (n : Nat) (h : 0 < n) :
    (List.range n).head? = some 0 := by
  cases n with
  | zero => exact absurd h (by simp)
  | succ m => simp [List.range_eq_range', List.range']

/-- Helper: the 60-second clip passes `validateFile` under the
five-frame configuration. -/
theorem validateFile_cfgFive_clip60 : validateFile cfgFive clip60 = none := by
  norm_num [validateFile, cfgFive, clip60, defaultAcceptedFormats,
    defaultMaxSizeMB]

/-- Helper: the 60-second clip passes `validateFile` under the default
configuration. -/
theorem validateFile_cfgDefault_clip60 :
    validateFile cfgDefault clip60 = none := by
  norm_num [validateFile, cfgDefault, VideoUploadProps.resolve, clip60,
    defaultAcceptedFormats, defaultMaxSizeMB]

/-- Helper: the 60-second clip is within the five-frame configuration's
duration limit. -/
theorem clip60_within_cfgFive :
    clip60.duration ≤ cfgFive.maxDurationSeconds := by
  norm_num [clip60, cfgFive, defaultMaxDurationSeconds]

/-- Helper: the 60-second clip is within the default configuration's
duration limit. -/
theorem clip60_within_cfgDefault :
    clip60.duration ≤ cfgDefault.maxDurationSeconds := by
  norm_num [clip60, cfgDefault, VideoUploadProps.resolve,
    defaultMaxDurationSeconds]

/-- Helper: the five sample times of a 60-second clip evaluate to 0, 12,
24, 36 and 48 seconds. -/
theorem sampleTimes_cfgFive_clip60 :
    (List.range cfgFive.extractFramesCount).map
        (fun i => (i : Rat) * (clip60.duration / (cfgFive.extractFramesCount : Rat)))
      = [0, 12, 24, 36, 48] := by
  norm_num [cfgFive, clip60, List.range_succ]

/-- C6: for every accepted video (valid type and size, duration within
the limit), the sampler's trace seeks at times `i * (duration /
extractFramesCount)` for `i` in `[0, extractFramesCount)`, the k-th seek
(position 2k) is followed by the k-th capture (position 2k+1) before the
next seek (position 2k+2), and a video whose duration exceeds
`maxDurationSeconds` is rejected before any frame extraction. -/
theorem video_sampler_frame_times (cfg : VideoUploadConfig) (pid : String)
    (f : VideoFile)
    (hvalid : validateFile cfg f = none)
    (hdur : f.duration ≤ cfg.maxDurationSeconds) :
    seekTimes (processFile cfg pid f).frameEvents
      = (List.range cfg.extractFramesCount).map
          (fun i => (i : Rat) * (f.duration / (cfg.extractFramesCount : Rat)))
    ∧ (∀ (k : Nat) (h : k < cfg.extractFramesCount),
        (processFile cfg pid f).frameEvents.get? (2 * k)
            = some (FrameEvent.seek
                ((k : Rat) * (f.duration / (cfg.extractFramesCount : Rat))))
          ∧ (processFile cfg pid f).frameEvents.get? (2 * k + 1)
            = some (FrameEvent.capture k
                ((((k : Rat) + 1) / (cfg.extractFramesCount : Rat)) * 100)))
    ∧ (∀ g : VideoFile, validateFile cfg g = none →
        cfg.maxDurationSeconds < g.duration →
        processFile cfg pid g
          = ProcessOutcome.rejected VideoRejectReason.durationExceeded) := by
  have hev : (processFile cfg pid f).frameEvents
      = extractFramesTrace f.duration cfg.extractFramesCount := by
    simp [processFile, hvalid, not_lt.mpr hdur, ProcessOutcome.frameEvents]
  refine ⟨?_, ?_, ?_⟩
  · rw [hev]
    exact seekTimes_framesAux f.duration cfg.extractFramesCount
      (List.range cfg.extractFramesCount)
  · intro k h
    rw [hev]
    have hk : k < (List.range cfg.extractFramesCount).length := by simpa using h
    have := framesAux_get_pair f.duration cfg.extractFramesCount
      (List.range cfg.extractFramesCount) k hk
    simpa [List.get_range] using this
  · intro g hg hgd
    simp [processFile, hg, hgd]

/-- C6 witness: a 60-second clip with `extractFramesCount = 5` is
sampled at 0, 12, 24, 36 and 48 seconds. -/
theorem video_sampler_frame_times_witness :
    validateFile cfgFive clip60 = none
    ∧ clip60.duration ≤ cfgFive.maxDurationSeconds
    ∧ seekTimes (processFile cfgFive "policy" clip60).frameEvents
        = [0, 12, 24, 36, 48] :=
  ⟨validateFile_cfgFive_clip60, clip60_within_cfgFive,
   ((video_sampler_frame_times cfgFive "policy" clip60
      validateFile_cfgFive_clip60 clip60_within_cfgFive).1).trans
     sampleTimes_cfgFive_clip60⟩

/-- C7 counterexample: with all props omitted, the resolved
`extractFramesCount` is not 5. -/
theorem video_frameCount_default_not_five :
    ¬ ((VideoUploadProps.resolve
        { maxSizeMB := none, maxDurationSeconds := none,
          acceptedFormats := none, extractFramesCount := none
        }).extractFramesCount = 5) := by
  decide

/-- C7 as amended: the sampler's frame count is a configurable prop of
`ModeratedVideoUpload`, and its default when the caller omits it is 3
(not 5). -/
theorem video_frameCount_configurable_default_three :
    (VideoUploadProps.resolve
        { maxSizeMB := none, maxDurationSeconds := none,
          acceptedFormats := none, extractFramesCount := none
        }).extractFramesCount = 3
    ∧ ∀ (p : VideoUploadProps) (n : Nat),
        (VideoUploadProps.resolve
          { p with extractFramesCount := some n }).extractFramesCount = n := by
  exact ⟨rfl, fun p n => rfl⟩

/-- C8 counterexample: for a 60-second video the thumbnail seek time is
1 second, not 6 seconds (10% of the duration): the source computes
`Math.min(1, video.duration * 0.1)`, which caps the seek at 1 second. -/
theorem video_thumbnail_seek_not_ten_percent :
    generateThumbnailSeek 60 = 1
    ∧ ¬ (generateThumbnailSeek 60 = 60 * (1 / 10))
    ∧ (processFile cfgFive "policy" clip60).thumbSeek? = some 1 := by
  have h1 : generateThumbnailSeek 60 = 1 := by
    rw [generateThumbnailSeek]
    norm_num [min_def]
  refine ⟨h1, ?_, ?_⟩
  · rw [h1]; norm_num
  · simp only [processFile, validateFile_cfgFive_clip60]
    rw [if_neg (not_lt.mpr clip60_within_cfgFive)]
    simp only [ProcessOutcome.thumbSeek?, Option.some.injEq]
    have : clip60.duration = 60 := rfl
    rw [this, h1]

/-- C8 as amended: for every accepted video the thumbnail is a single
frame captured at seek time `min 1 (duration / 10)` — 10% of the
duration capped at one second — and this seek time is independent of the
frame-sampling configuration (`extractFramesCount`). -/
theorem video_thumbnail_seek_capped (cfg : VideoUploadConfig) (pid : String)
    (f : VideoFile)
    (hvalid : validateFile cfg f = none)
    (hdur : f.duration ≤ cfg.maxDurationSeconds) :
    (processFile cfg pid f).thumbSeek? = some (min 1 (f.duration * (1 / 10)))
    ∧ ∀ n : Nat,
        (processFile { cfg with extractFramesCount := n } pid f).thumbSeek?
          = some (min 1 (f.duration * (1 / 10))) := by
  constructor
  · simp [processFile, hvalid, not_lt.mpr hdur, ProcessOutcome.thumbSeek?,
      generateThumbnailSeek]
  · intro n
    have hv : validateFile { cfg with extractFramesCount := n } f = none := by
      simpa [validateFile] using hvalid
    simp [processFile, hv, not_lt.mpr hdur, ProcessOutcome.thumbSeek?,
      generateThumbnailSeek]

/-- C8 witness: the amended thumbnail property evaluated on the
60-second clip (seek time `min 1 6 = 1`). -/
theorem video_thumbnail_seek_capped_witness :
    (processFile cfgFive "policy" clip60).thumbSeek?
        = some (min 1 (clip60.duration * (1 / 10)))
    ∧ ∀ n : Nat,
        (processFile { cfgFive with extractFramesCount := n }
            "policy" clip60).thumbSeek?
          = some (min 1 (clip60.duration * (1 / 10))) :=
  video_thumbnail_seek_capped cfgFive "policy" clip60
    validateFile_cfgFive_clip60 clip60_within_cfgFive

/-- C9 counterexample: with the default configuration (3 frames) the
60-second clip has 3 sampled frames but only one moderation submission,
so not every extracted frame is checked. -/
theorem video_not_all_frames_checked :
    (seekTimes (processFile cfgDefault "policy" clip60).frameEvents).length = 3
    ∧ ((processFile cfgDefault "policy" clip60).submitted).length = 1
    ∧ ¬ (((processFile cfgDefault "policy" clip60).submitted).length = 3) := by
  have hout :
      processFile cfgDefault "policy" clip60
        = ProcessOutcome.processed (generateThumbnailSeek clip60.duration)
            (extractFramesTrace clip60.duration cfgDefault.extractFramesCount)
            [{ contentFrameIndex := (List.range cfgDefault.extractFramesCount).headD 0,
               contentType := "video", policyId := "policy",
               totalFrames := (List.range cfgDefault.extractFramesCount).length,
               videoDuration := clip60.duration }] := by
    simp only [processFile, validateFile_cfgDefault_clip60]
    rw [if_neg (not_lt.mpr clip60_within_cfgDefault)]
    simp
    decide
  rw [hout]
  refine ⟨?_, ?_, ?_⟩
  · simp only [ProcessOutcome.frameEvents, extractFramesTrace,
      seekTimes_framesAux, List.length_map, List.length_range]
    decide
  · simp [ProcessOutcome.submitted]
  · simp [ProcessOutcome.submitted]

/-- C9 as amended: for every accepted video with at least one configured
frame, exactly one check is submitted; its content is the first
extracted frame (`frames[0]`) and the total frame count is carried only
as metadata — the remaining frames are extracted but never submitted,
and no per-frame aggregation takes place. -/
theorem video_first_frame_only_checked (cfg : VideoUploadConfig)
    (pid : String) (f : VideoFile)
    (hvalid : validateFile cfg f = none)
    (hdur : f.duration ≤ cfg.maxDurationSeconds)
    (hn : 0 < cfg.extractFramesCount) :
    (processFile cfg pid f).submitted
      = [{ contentFrameIndex := 0, contentType := "video", policyId := pid,
           totalFrames := cfg.extractFramesCount,
           videoDuration := f.duration }] := by
  simp [processFile, hvalid, not_lt.mpr hdur, ProcessOutcome.submitted, hn,
    range_headD_zero cfg.extractFramesCount hn,
    range_head_eq cfg.extractFramesCount hn, Nat.pos_iff_ne_zero.mp hn]

/-- C9 witness: the amended single-submission property evaluated on the
60-second clip with the default configuration. -/
theorem video_first_frame_only_checked_witness :
    (processFile cfgDefault "policy" clip60).submitted
      = [{ contentFrameIndex := 0, contentType := "video",
           policyId := "policy", totalFrames := cfgDefault.extractFramesCount,
           videoDuration := clip60.duration }] :=
  video_first_frame_only_checked cfgDefault "policy" clip60
    validateFile_cfgDefault_clip60 clip60_within_cfgDefault (by decide)

/-- C10: in `ModeratedTextarea` with `blockUnsafe` enabled and an unsafe
current result, a strictly longer new value is rejected (the stored
value is unchanged and `onChange` is not invoked), an equal-length or
shorter value is accepted (stored, `onChange` invoked), and hence the
stored text never grows under an unsafe result. -/
theorem textarea_blockUnsafe_monotone (ov nv : String) :
    (ov.length < nv.length → handleChange true false ov nv = (ov, false))
    ∧ (nv.length ≤ ov.length → handleChange true false ov nv = (nv, true))
    ∧ (handleChange true false ov nv).fst.length ≤ ov.length := by
  refine ⟨fun h => by simp [handleChange, h], fun h => ?_, ?_⟩
  · simp [handleChange, not_lt.mpr h]
  · by_cases h : ov.length < nv.length
    · simp [handleChange, h]
    · simp [handleChange, h, le_of_not_lt h]

/-- C10 witness: a growing edit under an unsafe result is dropped, a
shrinking edit is accepted. -/
theorem textarea_blockUnsafe_monotone_witness :
    handleChange true false "abc" "abcd" = ("abc", false)
    ∧ handleChange true false "abcd" "abc" = ("abc", true) :=
  ⟨(textarea_blockUnsafe_monotone "abc" "abcd").1 (by decide),
   (textarea_blockUnsafe_monotone "abcd" "abc").2.1 (by decide)⟩

/-- C5: a `check` call with an empty or whitespace-only string, from any
hook state, immediately sets the result to the safe/allow record, emits
no events (in particular starts no remote request — and the hook
contains no rate-limiter call on any path), schedules no debounce
callback, and leaves the in-flight set unchanged. -/
theorem useModeration_blank_short_circuit (s : HookState) (t : String)
    (h : isBlankString t = true) :
    (check true s (CheckContent.str t)).snd = []
    ∧ (check true s (CheckContent.str t)).fst.result = emptyContentResult
    ∧ (check true s (CheckContent.str t)).fst.result.safe = true
    ∧ (check true s (CheckContent.str t)).fst.result.action = Action.allow
    ∧ (check true s (CheckContent.str t)).fst.pending = none
    ∧ (check true s (CheckContent.str t)).fst.inflight = s.inflight := by
  simp [check, CheckContent.isBlank, h, emptyContentResult]

/-- C5 witness: the blank short-circuit evaluated at the empty string on
a fresh hook. -/
theorem useModeration_blank_short_circuit_witness :
    isBlankString "" = true
    ∧ ((check true initState (CheckContent.str "")).snd = []
      ∧ (check true initState (CheckContent.str "")).fst.result
          = emptyContentResult
      ∧ (check true initState (CheckContent.str "")).fst.result.safe = true
      ∧ (check true initState (CheckContent.str "")).fst.result.action
          = Action.allow
      ∧ (check true initState (CheckContent.str "")).fst.pending = none
      ∧ (check true initState (CheckContent.str "")).fst.inflight
          = initState.inflight) :=
  ⟨by decide, useModeration_blank_short_circuit initState "" (by decide)⟩

/-- Helper: running a concatenation of step lists runs them in sequence
and concatenates the emitted events. -/
theorem runFrom_append (enabled : Bool) (s : HookState)
    (l1 l2 : List SchedStep) :
    runFrom enabled s (l1 ++ l2)
      = ((runFrom enabled (runFrom enabled s l1).fst l2).fst,
         (runFrom enabled s l1).snd
           ++ (runFrom enabled (runFrom enabled s l1).fst l2).snd) := by
  induction l1 generalizing s with
  | nil => simp [runFrom]
  | cons a rest ih => simp [runFrom, ih, List.append_assoc]

/-- Helper: one step preserves the id lower bound, and any remote
request it starts carries an id above the bound. -/
theorem idsBounded_step (k : Nat) (enabled : Bool) (s : HookState)
    (hs : IdsBounded k s) (a : SchedStep) :
    IdsBounded k (step enabled s a).fst
    ∧ ∀ i c, SchedEvent.remoteStart i c ∈ (step enabled s a).snd → k ≤ i := by
  obtain ⟨hp, hn⟩ := hs
  cases a with
  | call c =>
    cases enabled with
    | false =>
      have hstep : step false s (SchedStep.call c) = (s, []) := by
        simp [step, check]
      rw [hstep]
      exact ⟨⟨hp, hn⟩, by simp⟩
    | true =>
      by_cases hb : c.isBlank
      · have hstep : (step true s (SchedStep.call c)).fst.pending = none
            ∧ (step true s (SchedStep.call c)).fst.nextId = s.nextId
            ∧ (step true s (SchedStep.call c)).snd = [] := by
          refine ⟨?_, ?_, ?_⟩ <;> simp [step, check, hb]
        refine ⟨⟨?_, ?_⟩, ?_⟩
        · intro i c' h
          rw [hstep.1] at h
          cases h
        · rw [hstep.2.1]
          exact hn
        · intro i c' h
          rw [hstep.2.2] at h
          cases h
      · have hstep : (step true s (SchedStep.call c)).fst.pending
              = some (s.nextId, c)
            ∧ (step true s (SchedStep.call c)).fst.nextId = s.nextId + 1
            ∧ (step true s (SchedStep.call c)).snd = [] := by
          refine ⟨?_, ?_, ?_⟩ <;> simp [step, check, hb]
        refine ⟨⟨?_, ?_⟩, ?_⟩
        · intro i c' h
          rw [hstep.1] at h
          cases h
          omega
        · rw [hstep.2.1]
          omega
        · intro i c' h
          rw [hstep.2.2] at h
          cases h
  | fire =>
    cases hpend : s.pending with
    | none =>
      have hstep : step enabled s SchedStep.fire = (s, []) := by
        simp [step, fireDebounce, hpend]
      rw [hstep]
      exact ⟨⟨hp, hn⟩, by simp⟩
    | some p =>
      obtain ⟨i, c⟩ := p
      have hk : k ≤ i := hp i c hpend
      have hstep : (step enabled s SchedStep.fire).fst.pending = none
          ∧ (step enabled s SchedStep.fire).fst.nextId = s.nextId + 1
          ∧ (step enabled s SchedStep.fire).snd
              = [SchedEvent.remoteStart i c] := by
        refine ⟨?_, ?_, ?_⟩ <;> simp [step, fireDebounce, hpend]
      refine ⟨⟨?_, ?_⟩, ?_⟩
      · intro i' c' h
        rw [hstep.1] at h
        cases h
      · rw [hstep.2.1]
        omega
      · intro i' c' h
        rw [hstep.2.2] at h
        cases h with
        | head => exact hk
        | tail _ h2 => cases h2
  | resolveOk i r =>
    cases hf : findInflight s i with
    | none =>
      have hstep : step enabled s (SchedStep.resolveOk i r) = (s, []) := by
        simp [step, resolveSuccess, hf]
      rw [hstep]
      exact ⟨⟨hp, hn⟩, by simp⟩
    | some p =>
      obtain ⟨i', c⟩ := p
      have hstep : (step enabled s (SchedStep.resolveOk i r)).fst.pending
            = s.pending
          ∧ (step enabled s (SchedStep.resolveOk i r)).fst.nextId = s.nextId
          ∧ (step enabled s (SchedStep.resolveOk i r)).snd
              = [SchedEvent.resultDelivered i c r] := by
        refine ⟨?_, ?_, ?_⟩ <;> simp [step, resolveSuccess, hf]
      refine ⟨⟨?_, ?_⟩, ?_⟩
      · intro i'' c' h
        rw [hstep.1] at h
        exact hp i'' c' h
      · rw [hstep.2.1]
        exact hn
      · intro i'' c' h
        rw [hstep.2.2] at h
        simp at h
  | resolveErr i name msg =>
    cases hf : findInflight s i with
    | none =>
      have hstep : step enabled s (SchedStep.resolveErr i name msg)
          = (s, []) := by
        simp [step, resolveFailure, hf]
      rw [hstep]
      exact ⟨⟨hp, hn⟩, by simp⟩
    | some p =>
      obtain ⟨i', c⟩ := p
      have hstep :
          (step enabled s (SchedStep.resolveErr i name msg)).fst.pending
            = s.pending
          ∧ (step enabled s (SchedStep.resolveErr i name msg)).fst.nextId
            = s.nextId
          ∧ ∀ i'' c',
              SchedEvent.remoteStart i'' c'
                ∉ (step enabled s (SchedStep.resolveErr i name msg)).snd := by
        by_cases hab : name = "AbortError"
        · refine ⟨?_, ?_, ?_⟩ <;> simp [step, resolveFailure, hf, hab]
        · refine ⟨?_, ?_, ?_⟩ <;> simp [step, resolveFailure, hf, hab]
      refine ⟨⟨?_, ?_⟩, ?_⟩
      · intro i'' c' h
        rw [hstep.1] at h
        exact hp i'' c' h
      · rw [hstep.2.1]
        exact hn
      · intro i'' c' h
        exact absurd h (hstep.2.2 i'' c')

/-- Helper: along any run from a state whose pending id and counter are
at least `k`, every started remote request has an id at least `k`. -/
theorem runFrom_remoteStart_bound (k : Nat) (enabled : Bool) :
    ∀ (steps : List SchedStep) (s : HookState), IdsBounded k s →
      IdsBounded k (runFrom enabled s steps).fst
      ∧ ∀ i c, SchedEvent.remoteStart i c ∈ (runFrom enabled s steps).snd →
          k ≤ i := by
  intro steps
  induction steps with
  | nil =>
    intro s hs
    exact ⟨hs, by simp [runFrom]⟩
  | cons a rest ih =>
    intro s hs
    have h1 := idsBounded_step k enabled s hs a
    have h2 := ih (step enabled s a).fst h1.1
    refine ⟨h2.1, ?_⟩
    intro i c hm
    simp only [runFrom, List.mem_append] at hm
    rcases hm with hm | hm
    · exact h1.2 i c hm
    · exact h2.2 i c hm

/-- C2: issuing call A and then call B before A's debounce delay elapsed
(no `fire` step between the two calls), the canonical completion fires
exactly one request — B's, with id 1 — and delivers exactly one result,
B's; and in every continuation of the two calls, A's request (id 0)
never fires. -/
theorem useModeration_debounce_supersede (a b : String) (r : CheckResponse)
    (ha : isBlankString a = false) (hb : isBlankString b = false) :
    (run [SchedStep.call (CheckContent.str a),
          SchedStep.call (CheckContent.str b),
          SchedStep.fire, SchedStep.resolveOk 1 r]).snd
      = [SchedEvent.remoteStart 1 (CheckContent.str b),
         SchedEvent.resultDelivered 1 (CheckContent.str b) r]
    ∧ ∀ (rest : List SchedStep) (c : CheckContent),
        SchedEvent.remoteStart 0 c
          ∉ (run ([SchedStep.call (CheckContent.str a),
                   SchedStep.call (CheckContent.str b)] ++ rest)).snd := by
  constructor
  · simp [run, runFrom, step, check, CheckContent.isBlank, ha, hb,
      fireDebounce, resolveSuccess, findInflight, removeInflight, initState,
      List.find?]
  · intro rest c hm
    have hpend : (runFrom true initState
        [SchedStep.call (CheckContent.str a),
         SchedStep.call (CheckContent.str b)]).fst.pending
        = some (1, CheckContent.str b) := by
      simp [runFrom, step, check, CheckContent.isBlank, ha, hb, initState]
    have hnext : (runFrom true initState
        [SchedStep.call (CheckContent.str a),
         SchedStep.call (CheckContent.str b)]).fst.nextId = 2 := by
      simp [runFrom, step, check, CheckContent.isBlank, ha, hb, initState]
    have hev : (runFrom true initState
        [SchedStep.call (CheckContent.str a),
         SchedStep.call (CheckContent.str b)]).snd = [] := by
      simp [runFrom, step, check, CheckContent.isBlank, ha, hb, initState]
    have hbound : IdsBounded 1 (runFrom true initState
        [SchedStep.call (CheckContent.str a),
         SchedStep.call (CheckContent.str b)]).fst := by
      constructor
      · intro i c' h
        rw [hpend] at h
        cases h
        exact le_refl 1
      · omega
    rw [run, runFrom_append] at hm
    simp only [List.mem_append, hev, List.not_mem_nil, false_or] at hm
    have := (runFrom_remoteStart_bound 1 true rest _ hbound).2 0 c hm
    omega

/-- C2 witness: the canonical two-call scenario with concrete contents
and a concrete response, discharging the non-blank hypotheses. -/
theorem useModeration_debounce_supersede_witness :
    isBlankString "hello" = false
    ∧ isBlankString "hello world" = false
    ∧ ((run [SchedStep.call (CheckContent.str "hello"),
          SchedStep.call (CheckContent.str "hello world"),
          SchedStep.fire, SchedStep.resolveOk 1 staleResponse]).snd
        = [SchedEvent.remoteStart 1 (CheckContent.str "hello world"),
           SchedEvent.resultDelivered 1 (CheckContent.str "hello world")
             staleResponse]
      ∧ ∀ (rest : List SchedStep) (c : CheckContent),
          SchedEvent.remoteStart 0 c
            ∉ (run ([SchedStep.call (CheckContent.str "hello"),
                     SchedStep.call (CheckContent.str "hello world")]
                ++ rest)).snd) :=
  ⟨by decide, by decide,
   useModeration_debounce_supersede "hello" "hello world" staleResponse
     (by decide) (by decide)⟩

/-- C1 (exhibiting the code bug): call "first"; its debounce timer fires
and the request goes out; call "second" arrives while that request is in
flight (aborting controller 1 and scheduling call id 2); then the
superseded request resolves.  Its response IS delivered: the result
event for call 0 is emitted (i.e. `setResult` runs and `onCheck` is
invoked), and the shared result state now holds the stale response's
verdict, even though the newer call is still pending — because the
abort signal was never attached to the request. -/
theorem useModeration_superseded_response_delivered :
    (run [SchedStep.call (CheckContent.str "first"), SchedStep.fire,
          SchedStep.call (CheckContent.str "second"),
          SchedStep.resolveOk 0 staleResponse]).snd
      = [SchedEvent.remoteStart 0 (CheckContent.str "first"),
         SchedEvent.resultDelivered 0 (CheckContent.str "first")
           staleResponse]
    ∧ (run [SchedStep.call (CheckContent.str "first"), SchedStep.fire,
          SchedStep.call (CheckContent.str "second"),
          SchedStep.resolveOk 0 staleResponse]).fst.result.safe = false
    ∧ (run [SchedStep.call (CheckContent.str "first"), SchedStep.fire,
          SchedStep.call (CheckContent.str "second"),
          SchedStep.resolveOk 0 staleResponse]).fst.result.action
        = Action.block
    ∧ (run [SchedStep.call (CheckContent.str "first"), SchedStep.fire,
          SchedStep.call (CheckContent.str "second"),
          SchedStep.resolveOk 0 staleResponse]).fst.aborted = [1]
    ∧ (run [SchedStep.call (CheckContent.str "first"), SchedStep.fire,
          SchedStep.call (CheckContent.str "second"),
          SchedStep.resolveOk 0 staleResponse]).fst.pending
        = some (2, CheckContent.str "second") := by
  refine ⟨by decide, by decide, by decide, by decide, by decide⟩

/-- Helper: starting from a limiter whose stored list for `g` is `j`
copies of `t`, a further `k` admissions at time `t` (with `j + k` within
the cap) all succeed and leave `j + k` copies of `t` recorded, the cap
and window unchanged. -/
theorem runAdmits_replicate_aux (cap window : Nat) (hwin : 0 < window)
    (g : String) (t : Int) :
    ∀ (k j : Nat), j + k ≤ cap →
      ∀ rl : RateLimiter, rl.maxRequests = cap → rl.windowMs = window →
        rl.requests g = List.replicate j t →
        (runAdmits rl g (List.replicate k t)).fst = List.replicate k true
        ∧ (runAdmits rl g (List.replicate k t)).snd.maxRequests = cap
        ∧ (runAdmits rl g (List.replicate k t)).snd.windowMs = window
        ∧ (runAdmits rl g (List.replicate k t)).snd.requests g
            = List.replicate (j + k) t := by
  intro k
  induction k with
  | zero =>
    intro j hjk rl hmax hwinEq hreq
    simp [runAdmits, hmax, hwinEq, hreq]
  | succ k ih =>
    intro j hjk rl hmax hwinEq hreq
    have hrecent : recentRequests rl t g = List.replicate j t := by
      rw [recentRequests, hreq, hwinEq]
      rw [List.filter_eq_self.mpr]
      intro x hx
      rw [List.eq_of_mem_replicate hx]
      simpa using hwin
    have hnotcap : ¬ rl.maxRequests ≤ (recentRequests rl t g).length := by
      rw [hrecent, hmax]
      simp only [List.length_replicate]
      omega
    have hadm : rl.tryAdmit t g
        = (true,
           { rl with
              requests := fun g' =>
                if g' = g then recentRequests rl t g ++ [t]
                else rl.requests g' }) := by
      simp [RateLimiter.tryAdmit, RateLimiter.isLimited, hnotcap]
    have hreq' :
        (rl.tryAdmit t g).snd.requests g = List.replicate (j + 1) t := by
      rw [hadm]
      simp [hrecent, List.replicate_succ']
    have hih := ih (j + 1) (by omega) (rl.tryAdmit t g).snd
      (by rw [hadm]; exact hmax) (by rw [hadm]; exact hwinEq) hreq'
    have hcons :
        runAdmits rl g (List.replicate (k + 1) t)
          = (((rl.tryAdmit t g).fst
              :: (runAdmits (rl.tryAdmit t g).snd g (List.replicate k t)).fst),
             (runAdmits (rl.tryAdmit t g).snd g (List.replicate k t)).snd) := by
      rw [List.replicate_succ]
      rfl
    have hfst : (rl.tryAdmit t g).fst = true := by rw [hadm]
    refine ⟨?_, ?_, ?_, ?_⟩
    · rw [hcons, List.replicate_succ]
      rw [hfst, hih.1]
    · rw [hcons]
      exact hih.2.1
    · rw [hcons]
      exact hih.2.2.1
    · rw [hcons]
      have : j + (k + 1) = (j + 1) + k := by omega
      rw [this]
      exact hih.2.2.2

/-- C3: the sliding-window admission contract.  In general a call is
admitted iff fewer than `maxRequests` timestamps lie in the trailing
window, the admitting timestamp is recorded exactly on admission, and a
rejected call leaves the limiter unchanged; consequently, after exactly
`cap` admissions at time `t` the next call within the window is
rejected, and a call after the window has elapsed is admitted again. -/
theorem rateLimiter_sliding_window_spec (cap window : Nat) (g : String)
    (t u v : Int)
    (hcap : 0 < cap) (hwin : 0 < window)
    (hu : u - t < (window : Int)) (hv : (window : Int) ≤ v - t) :
    (∀ (rl : RateLimiter) (now : Int) (gid : String),
        ((rl.tryAdmit now gid).fst = true
          ↔ (recentRequests rl now gid).length < rl.maxRequests)
        ∧ ((rl.tryAdmit now gid).fst = true →
            (rl.tryAdmit now gid).snd.requests gid
              = recentRequests rl now gid ++ [now])
        ∧ ((rl.tryAdmit now gid).fst = false → (rl.tryAdmit now gid).snd = rl))
    ∧ (runAdmits (RateLimiter.create cap window) g
        (List.replicate cap t)).fst = List.replicate cap true
    ∧ ((runAdmits (RateLimiter.create cap window) g
          (List.replicate cap t)).snd.tryAdmit u g).fst = false
    ∧ ((runAdmits (RateLimiter.create cap window) g
          (List.replicate cap t)).snd.tryAdmit v g).fst = true := by
  have hchar : ∀ (rl : RateLimiter) (now : Int) (gid : String),
      ((rl.tryAdmit now gid).fst = true
        ↔ (recentRequests rl now gid).length < rl.maxRequests)
      ∧ ((rl.tryAdmit now gid).fst = true →
          (rl.tryAdmit now gid).snd.requests gid
            = recentRequests rl now gid ++ [now])
      ∧ ((rl.tryAdmit now gid).fst = false → (rl.tryAdmit now gid).snd = rl) := by
    intro rl now gid
    by_cases h : rl.maxRequests ≤ (recentRequests rl now gid).length
    · refine ⟨?_, ?_, ?_⟩ <;>
        simp [RateLimiter.tryAdmit, RateLimiter.isLimited, h, not_lt.mpr h]
    · refine ⟨?_, ?_, ?_⟩ <;>
        simp [RateLimiter.tryAdmit, RateLimiter.isLimited, h, not_le.mp h]
  have haux := runAdmits_replicate_aux cap window hwin g t cap 0 (by omega)
    (RateLimiter.create cap window) rfl rfl rfl
  refine ⟨hchar, haux.1, ?_, ?_⟩
  · have hreq := haux.2.2.2
    have hmax := haux.2.1
    have hwinEq := haux.2.2.1
    have hrecent : recentRequests
        (runAdmits (RateLimiter.create cap window) g
          (List.replicate cap t)).snd u g = List.replicate cap t := by
      rw [recentRequests, hreq, hwinEq]
      rw [List.filter_eq_self.mpr]
      · simp
      · intro x hx
        rw [List.eq_of_mem_replicate hx]
        simpa using hu
    have h1 := (hchar (runAdmits (RateLimiter.create cap window) g
        (List.replicate cap t)).snd u g).1
    rw [hrecent, hmax] at h1
    simp only [List.length_replicate] at h1
    cases hval : ((runAdmits (RateLimiter.create cap window) g
        (List.replicate cap t)).snd.tryAdmit u g).fst with
    | false => rfl
    | true => exact absurd (h1.mp hval) (by omega)
  · have hreq := haux.2.2.2
    have hmax := haux.2.1
    have hwinEq := haux.2.2.1
    have hrecent : recentRequests
        (runAdmits (RateLimiter.create cap window) g
          (List.replicate cap t)).snd v g = [] := by
      rw [recentRequests, hreq, hwinEq]
      rw [List.filter_eq_nil.mpr]
      intro x hx
      rw [List.eq_of_mem_replicate hx]
      simpa using not_lt.mpr hv
    have h1 := (hchar (runAdmits (RateLimiter.create cap window) g
        (List.replicate cap t)).snd v g).1
    rw [hrecent, hmax] at h1
    exact h1.mpr (by simpa using hcap)

/-- C3 witness: with cap 2 and a 60-second window, two admissions at
time 0 succeed, a third at time 1 is rejected, and one at time 60000 is
admitted again. -/
theorem rateLimiter_sliding_window_spec_witness :
    0 < 2 ∧ 0 < 60000
    ∧ (1 : Int) - 0 < ((60000 : Nat) : Int)
    ∧ ((60000 : Nat) : Int) ≤ (60000 : Int) - 0
    ∧ ((∀ (rl : RateLimiter) (now : Int) (gid : String),
        ((rl.tryAdmit now gid).fst = true
          ↔ (recentRequests rl now gid).length < rl.maxRequests)
        ∧ ((rl.tryAdmit now gid).fst = true →
            (rl.tryAdmit now gid).snd.requests gid
              = recentRequests rl now gid ++ [now])
        ∧ ((rl.tryAdmit now gid).fst = false → (rl.tryAdmit now gid).snd = rl))
      ∧ (runAdmits (RateLimiter.create 2 60000) "guild"
          (List.replicate 2 (0 : Int))).fst = List.replicate 2 true
      ∧ ((runAdmits (RateLimiter.create 2 60000) "guild"
            (List.replicate 2 (0 : Int))).snd.tryAdmit 1 "guild").fst = false
      ∧ ((runAdmits (RateLimiter.create 2 60000) "guild"
            (List.replicate 2 (0 : Int))).snd.tryAdmit 60000 "guild").fst
          = true) :=
  ⟨by decide, by decide, by decide, by decide,
   rateLimiter_sliding_window_spec 2 60000 "guild" 0 1 60000
     (by decide) (by decide) (by decide) (by decide)⟩

/-- C4: starting from no cache entry for the tenant, the first `get`
performs exactly one database fetch and returns the database's value
(including `null` when the tenant does not exist); a second `get` within
the TTL performs no fetch and returns the same value; and an
intervening write through `updateServerConfig` (which deletes the cache
entry) forces the next `get` to fetch again. -/
theorem configCache_ttl_and_invalidate
    (db : String → Option DiscordServer) (st : ConfigCacheState)
    (g : String) (now1 now2 : Int)
    (hcold : st.cache g = none)
    (httl : now2 - now1 < CACHE_TTL) :
    getFetches db st now1 g = 1
    ∧ getValue db st now1 g = db g
    ∧ getFetches db (getState db st now1 g) now2 g = 0
    ∧ getValue db (getState db st now1 g) now2 g = db g
    ∧ ∀ db' : String → Option DiscordServer,
        getFetches db
          (updateServerConfig db' (getState db st now1 g) g).snd now2 g
          = 1 := by
  have hstate : (getState db st now1 g).cache g
      = some { config := db g, timestamp := now1 } := by
    simp [getState, getServerConfig, hcold, queryAndCache]
  refine ⟨?_, ?_, ?_, ?_, ?_⟩
  · simp [getFetches, getServerConfig, hcold, queryAndCache]
  · simp [getValue, getServerConfig, hcold, queryAndCache]
  · simp [getFetches, getServerConfig, hstate, httl]
  · simp [getValue, getServerConfig, hstate, httl]
  · intro db'
    simp [getFetches, getServerConfig, updateServerConfig,
      invalidateServerConfig, queryAndCache]

/-- C4 witness: a nonexistent tenant on an empty cache — the first `get`
fetches (and caches the `null`), the second within the TTL does not,
and a write-path invalidation forces a refetch. -/
theorem configCache_ttl_and_invalidate_witness :
    emptyConfigCache.cache "guild" = none
    ∧ (1 : Int) - 0 < CACHE_TTL
    ∧ (getFetches (fun _ => none) emptyConfigCache 0 "guild" = 1
      ∧ getValue (fun _ => none) emptyConfigCache 0 "guild"
          = (fun (_ : String) => (none : Option DiscordServer)) "guild"
      ∧ getFetches (fun _ => none)
          (getState (fun _ => none) emptyConfigCache 0 "guild") 1 "guild" = 0
      ∧ getValue (fun _ => none)
          (getState (fun _ => none) emptyConfigCache 0 "guild") 1 "guild"
          = (fun (_ : String) => (none : Option DiscordServer)) "guild"
      ∧ ∀ db' : String → Option DiscordServer,
          getFetches (fun _ => none)
            (updateServerConfig db'
              (getState (fun _ => none) emptyConfigCache 0 "guild")
              "guild").snd 1 "guild" = 1) :=
  ⟨rfl, by decide,
   configCache_ttl_and_invalidate (fun _ => none) emptyConfigCache
     "guild" 0 1 rfl (by decide)⟩

end Vettly
